import Mathlib

/-!
Shallow embedding of `src/hex.rs` from the rust-slack repository: the
`HexColor` validated string wrapper, the `SlackColor` builtin enumeration,
and the `into_hex_color` constructor.  Rust strings are modelled through
Lean `String` (a list of Unicode scalar values): `s.chars().count()` is
`s.length`, `s.chars().next()` is `s.data.head?`, and the byte slice
`self[1..]` taken after the first character is known to be `'#'` (a one
byte character) is `s.data.drop 1`.
-/

deriving instance DecidableEq for Except

namespace RustSlack

/-- Error type of `rustc_serialize::hex::FromHex::from_hex`, the hex
decoder `into_hex_color` delegates to (src/hex.rs line 113): an invalid
character together with a position, or an odd number of hex digits.  The
repository pins this decoder's behaviour in its own tests
(`test_hex_color_invalid_hex_fmt` expects the rendering
`Invalid character 'z' at position 5`, `test_hex_color_error_impl` the
description `invalid character`). -/
inductive FromHexError where
  | invalidHexCharacter (c : Char) (idx : Nat)
  | invalidHexLength
deriving DecidableEq, Repr

/-- Error payload produced by `into_hex_color` (src/hex.rs lines 100-118):
either `fail!((ErrHexColor, msg))` with a literal message, or `fail!(e)`
propagating the hex decoder's error.  The `SlackError` wrapper of
`types.rs` only records this payload; the spec's `WrongLength` and
`MissingHash` are the two `errHexColor` messages and its `InvalidHex` is
a propagated `invalidHexCharacter`. -/
inductive SlackError where
  | errHexColor (desc : String)
  | hexError (e : FromHexError)
deriving DecidableEq, Repr

/-- `pub struct HexColor(String)` (src/hex.rs line 13): an immutable
string wrapper with no mutating operations. -/
structure HexColor where
  text : String
deriving DecidableEq, Repr

/-- `pub enum SlackColor { Good, Warning, Danger }` (src/hex.rs
lines 17-25). -/
inductive SlackColor where
  | good
  | warning
  | danger
deriving DecidableEq, Repr

/-- `impl AsRef<str> for SlackColor` (src/hex.rs lines 41-49). -/
def SlackColor.as_ref : SlackColor → String
  | .good => "good"
  | .warning => "warning"
  | .danger => "danger"

/-- `impl ToString for SlackColor` (src/hex.rs lines 35-39). -/
def SlackColor.to_string (c : SlackColor) : String :=
  c.as_ref

/-- `const SLACK_COLORS: [&str; 3]` (src/hex.rs lines 29-32). -/
def SLACK_COLORS : List String :=
  ["good", "warning", "danger"]

/-- `impl fmt::Debug for HexColor` (src/hex.rs lines 51-56) writes the
stored text unchanged; this is the spec's `toText` serialization path. -/
def HexColor.toText (h : HexColor) : String :=
  h.text

/-- The one `rustc_serialize::json::Json` constructor used by this unit. -/
inductive Json where
  | jstring (s : String)
deriving DecidableEq, Repr

/-- `impl ToJson for HexColor` (src/hex.rs lines 81-85):
`Json::String(format!("{:?}", &self))`, i.e. the Debug rendering of the
stored text; the spec's `toJsonValue`. -/
def HexColor.to_json (h : HexColor) : Json :=
  .jstring h.toText

/-- `impl HexColorT for HexColor` (src/hex.rs lines 73-79): constructs a
`HexColor` from a `SlackColor`, `HexColor(color.to_string())`; the spec's
`fromBuiltin`. -/
def HexColor.new (color : SlackColor) : HexColor :=
  ⟨color.to_string⟩

/-- Whitespace bytes skipped by the `from_hex` decoder
(`b' ' | b'\r' | b'\n' | b'\t'` match arm). -/
def isHexWs (c : Char) : Bool :=
  c = ' ' || c = '\r' || c = '\n' || c = '\t'

/-- Hex digit classification of the `from_hex` decoder, in the order of
its match arms (`b'A'...b'F'`, `b'a'...b'f'`, `b'0'...b'9'`), returning
the digit's value. -/
def hexDigitVal (c : Char) : Option Nat :=
  if 'A' ≤ c && c ≤ 'F' then some (c.toNat - 'A'.toNat + 10)
  else if 'a' ≤ c && c ≤ 'f' then some (c.toNat - 'a'.toNat + 10)
  else if '0' ≤ c && c ≤ '9' then some (c.toNat - '0'.toNat)
  else none

/-- Loop of `rustc_serialize::hex::FromHex::from_hex` over the input:
`buf` is the `u8` accumulator (`buf <<= 4` then `buf |= digit`, and
`buf >>= 4; continue` on whitespace), `modulus` counts digits modulo 2
and a full byte is pushed when it reaches 2, and a byte that is neither
a hex digit nor whitespace stops the loop with `InvalidHexCharacter`
carrying that character and `idx`.  The Rust loop enumerates UTF-8 bytes;
iterating characters while stepping `idx` by 1 is equivalent because
every consumed byte (hex digit or whitespace) is a one-byte character,
and at the first other character the decoder's reported character
`self[idx..].chars().next()` is exactly that character: a multi-byte
character's first byte is `≥ 0xC2`, matching no consuming arm. -/
def from_hex_loop : List Char → Nat → Nat → Nat → List Nat → Except FromHexError (List Nat)
  | [], _, modulus, _, b =>
    if modulus = 0 then .ok b.reverse else .error .invalidHexLength
  | c :: rest, idx, modulus, buf, b =>
    match hexDigitVal c with
    | some v =>
      if modulus + 1 = 2 then
        from_hex_loop rest (idx + 1) 0 (buf * 16 % 256 + v) ((buf * 16 % 256 + v) :: b)
      else
        from_hex_loop rest (idx + 1) (modulus + 1) (buf * 16 % 256 + v) b
    | none =>
      if isHexWs c then from_hex_loop rest (idx + 1) modulus (buf * 16 % 256 / 16) b
      else .error (.invalidHexCharacter c idx)

/-- `rustc_serialize::hex::FromHex::from_hex` on a string given as its
character list. -/
def from_hex (cs : List Char) : Except FromHexError (List Nat) :=
  from_hex_loop cs 0 0 0 []

/-- `into_hex_color` (src/hex.rs lines 100-118), the spec's `fromText`.
`none` models a panic: the `.unwrap()` on `chars().next()` (line 109) and
the byte slice `self[1..]` (line 113), which panics when byte offset 1 is
not a character boundary, i.e. when the first character is longer than
one byte.  `some r` is the returned `SlackResult<HexColor>`. -/
def into_hex_color (s : String) : Option (Except SlackError HexColor) :=
  if SLACK_COLORS.contains s then
    some (.ok ⟨s⟩)
  else if s.length ≠ 7 then
    some (.error (.errHexColor "Must be 7 characters long (including #)"))
  else
    match s.data.head? with
    | none => none
    | some c =>
      if c ≠ '#' then
        some (.error (.errHexColor "No leading #"))
      else if c.utf8Size ≠ 1 then
        none
      else
        some (match from_hex (s.data.drop 1) with
          | .ok _ => .ok ⟨s⟩
          | .error e => .error (.hexError e))

/-- Characters the decoder loop consumes: hex digits and skipped
whitespace. -/
def hexOrWs (c : Char) : Bool :=
  (hexDigitVal c).isSome || isHexWs c

/-- Number of hex digits in a character list. -/
def countHexDigits : List Char → Nat
  | [] => 0
  | c :: rest => (if (hexDigitVal c).isSome then 1 else 0) + countHexDigits rest

/-- Hexadecimal digit exactly as the spec words it: 0-9, a-f, A-F. -/
def SpecHexDigit (c : Char) : Prop :=
  ('0' ≤ c ∧ c ≤ '9') ∨ ('a' ≤ c ∧ c ≤ 'f') ∨ ('A' ≤ c ∧ c ≤ 'F')

instance (c : Char) : Decidable (SpecHexDigit c) := by
  unfold SpecHexDigit
  infer_instance

/-- The stored-string invariant exactly as claim C1 words it: a reserved
keyword, or 7 characters starting with a hash whose remaining 6
characters are all hexadecimal digits. -/
def C1SpecValid (s : String) : Prop :=
  s ∈ SLACK_COLORS ∨
  (s.length = 7 ∧ s.data.head? = some '#' ∧ ∀ c ∈ s.data.drop 1, SpecHexDigit c)

instance (s : String) : Decidable (C1SpecValid s) := by
  unfold C1SpecValid
  infer_instance

/-- The stored-string invariant the code actually maintains: a reserved
keyword, or 7 characters starting with a hash whose remaining 6
characters are hex digits or decoder whitespace, with an even number of
hex digits among them. -/
def ValidStoredText (s : String) : Prop :=
  SLACK_COLORS.contains s = true ∨
  (s.length = 7 ∧ s.data.head? = some '#' ∧
    (∀ c ∈ s.data.drop 1, hexOrWs c = true) ∧
    countHexDigits (s.data.drop 1) % 2 = 0)

instance (s : String) : Decidable (ValidStoredText s) := by
  unfold ValidStoredText
  infer_instance

theorem string_length_eq_data (s : String) : s.length = s.data.length := rfl

/-- The decoder loop succeeds exactly when every character is a hex digit
or whitespace and the number of hex digits has the parity of `modulus`. -/
theorem from_hex_loop_ok_iff (cs : List Char) :
    ∀ (idx modulus buf : Nat) (b : List Nat), modulus < 2 →
    ((∃ l, from_hex_loop cs idx modulus buf b = .ok l) ↔
      ((∀ c ∈ cs, hexOrWs c = true) ∧ (modulus + countHexDigits cs) % 2 = 0)) := by
  induction cs with
  | nil =>
    intro idx modulus buf b hm
    unfold from_hex_loop
    split
    · next h => simp [countHexDigits, h]
    · next h =>
      have h1 : modulus = 1 := by omega
      simp [countHexDigits, h1]
  | cons c rest ih =>
    intro idx modulus buf b hm
    unfold from_hex_loop
    split
    · next v hv =>
      have hcw : hexOrWs c = true := by simp [hexOrWs, hv]
      have hcnt : countHexDigits (c :: rest) = 1 + countHexDigits rest := by
        simp [countHexDigits, hv]
      split
      · next h2 =>
        rw [ih (idx + 1) 0 _ _ (by omega), hcnt]
        simp only [List.mem_cons]
        constructor
        · rintro ⟨hall, hmod⟩
          refine ⟨?_, by omega⟩
          rintro x (rfl | hx)
          · exact hcw
          · exact hall x hx
        · rintro ⟨hall, hmod⟩
          exact ⟨fun x hx => hall x (Or.inr hx), by omega⟩
      · next h2 =>
        rw [ih (idx + 1) (modulus + 1) _ _ (by omega), hcnt]
        simp only [List.mem_cons]
        constructor
        · rintro ⟨hall, hmod⟩
          refine ⟨?_, by omega⟩
          rintro x (rfl | hx)
          · exact hcw
          · exact hall x hx
        · rintro ⟨hall, hmod⟩
          exact ⟨fun x hx => hall x (Or.inr hx), by omega⟩
    · next hv =>
      have hcnt : countHexDigits (c :: rest) = countHexDigits rest := by
        simp [countHexDigits, hv]
      split
      · next hws =>
        have hcw : hexOrWs c = true := by simp [hexOrWs, hws]
        rw [ih (idx + 1) modulus _ _ hm, hcnt]
        simp only [List.mem_cons]
        constructor
        · rintro ⟨hall, hmod⟩
          refine ⟨?_, hmod⟩
          rintro x (rfl | hx)
          · exact hcw
          · exact hall x hx
        · rintro ⟨hall, hmod⟩
          exact ⟨fun x hx => hall x (Or.inr hx), hmod⟩
      · next hws =>
        have hws2 : isHexWs c = false := by
          cases h : isHexWs c
          · rfl
          · exact absurd h hws
        have hcw : hexOrWs c = false := by simp [hexOrWs, hv, hws2]
        constructor
        · rintro ⟨l, hl⟩
          exact absurd hl (by simp)
        · rintro ⟨hall, _⟩
          have := hall c (List.mem_cons_self c rest)
          rw [hcw] at this
          exact absurd this (by simp)

/-- Shifting the decomposition of an error position past one consumed
character. -/
theorem consumed_step_iff (a : Char) (rest : List Char) (idx : Nat) (c : Char)
    (i : Nat) (haw : hexOrWs a = true) :
    (∃ pre post, rest = pre ++ c :: post ∧ (∀ x ∈ pre, hexOrWs x = true) ∧
        hexOrWs c = false ∧ i = (idx + 1) + pre.length) ↔
    (∃ pre post, a :: rest = pre ++ c :: post ∧ (∀ x ∈ pre, hexOrWs x = true) ∧
        hexOrWs c = false ∧ i = idx + pre.length) := by
  constructor
  · rintro ⟨pre, post, rfl, hpre, hc, hi⟩
    refine ⟨a :: pre, post, rfl, ?_, hc, ?_⟩
    · rintro x hx
      rcases List.mem_cons.mp hx with rfl | hx
      · exact haw
      · exact hpre x hx
    · simp only [List.length_cons]
      omega
  · rintro ⟨pre, post, hsplit, hpre, hc, hi⟩
    cases pre with
    | nil =>
      simp only [List.nil_append, List.cons.injEq] at hsplit
      rcases hsplit with ⟨rfl, rfl⟩
      rw [haw] at hc
      exact absurd hc (by simp)
    | cons a2 pre2 =>
      simp only [List.cons_append, List.cons.injEq] at hsplit
      rcases hsplit with ⟨rfl, hrest⟩
      refine ⟨pre2, post, hrest, fun x hx => hpre x (List.mem_cons_of_mem _ hx), hc, ?_⟩
      simp only [List.length_cons] at hi
      omega

/-- The decoder loop reports `InvalidHexCharacter c i` exactly when `c` is
the first character that is neither a hex digit nor whitespace and `i` is
`idx` plus the number of characters before it. -/
theorem from_hex_loop_invalidChar_iff (cs : List Char) :
    ∀ (idx modulus buf : Nat) (b : List Nat) (c : Char) (i : Nat),
    (from_hex_loop cs idx modulus buf b = .error (.invalidHexCharacter c i) ↔
      ∃ pre post, cs = pre ++ c :: post ∧ (∀ x ∈ pre, hexOrWs x = true) ∧
        hexOrWs c = false ∧ i = idx + pre.length) := by
  induction cs with
  | nil =>
    intro idx modulus buf b c i
    unfold from_hex_loop
    split <;> simp
  | cons a rest ih =>
    intro idx modulus buf b c i
    unfold from_hex_loop
    split
    · next v hv =>
      have haw : hexOrWs a = true := by simp [hexOrWs, hv]
      split
      · rw [ih (idx + 1) 0 _ _ c i]
        exact consumed_step_iff a rest idx c i haw
      · rw [ih (idx + 1) (modulus + 1) _ _ c i]
        exact consumed_step_iff a rest idx c i haw
    · next hv =>
      split
      · next hws =>
        have haw : hexOrWs a = true := by simp [hexOrWs, hws]
        rw [ih (idx + 1) modulus _ _ c i]
        exact consumed_step_iff a rest idx c i haw
      · next hws =>
        have hws2 : isHexWs a = false := by
          cases h : isHexWs a
          · rfl
          · exact absurd h hws
        have haw : hexOrWs a = false := by simp [hexOrWs, hv, hws2]
        constructor
        · intro h
          simp only [Except.error.injEq, FromHexError.invalidHexCharacter.injEq] at h
          rcases h with ⟨rfl, rfl⟩
          exact ⟨[], rest, rfl, by simp, haw, by simp⟩
        · rintro ⟨pre, post, hsplit, hpre, hc, hi⟩
          cases pre with
          | nil =>
            simp only [List.nil_append, List.cons.injEq] at hsplit
            rcases hsplit with ⟨rfl, rfl⟩
            simp only [List.length_nil, Nat.add_zero] at hi
            rw [hi]
          | cons a2 pre2 =>
            simp only [List.cons_append, List.cons.injEq] at hsplit
            rcases hsplit with ⟨rfl, hrest⟩
            have := hpre a (List.mem_cons_self a pre2)
            rw [haw] at this
            exact absurd this (by simp)

/-- A successful `into_hex_color` stores the input string verbatim
(`self.to_owned()` in every `Ok` branch). -/
theorem into_hex_color_ok_eq (s : String) (v : HexColor)
    (h : into_hex_color s = some (.ok v)) : v = ⟨s⟩ := by
  unfold into_hex_color at h
  split at h
  · simp only [Option.some.injEq, Except.ok.injEq] at h
    exact h.symm
  · split at h
    · simp at h
    · split at h
      · simp at h
      · split at h
        · simp at h
        · split at h
          · simp at h
          · split at h
            · simp only [Option.some.injEq, Except.ok.injEq] at h
              exact h.symm
            · simp at h

/-- Reduction of `into_hex_color` past the keyword and length checks once
the character list is exposed. -/
theorem into_hex_color_head (s : String) (a : Char) (t : List Char)
    (hq : s.data = a :: t) (h1 : SLACK_COLORS.contains s = false)
    (h2 : s.length = 7) :
    into_hex_color s =
      (if a ≠ '#' then some (.error (.errHexColor "No leading #"))
       else if a.utf8Size ≠ 1 then none
       else some (match from_hex t with
         | .ok _ => .ok ⟨s⟩
         | .error e => .error (.hexError e))) := by
  unfold into_hex_color
  rw [if_neg (by rw [h1]; simp), if_neg (by rw [h2]; simp), hq]
  simp only [List.head?_cons, List.drop_succ_cons, List.drop_zero]

/-- Reduction of `into_hex_color` to the hex-decoder call when the input
has seven characters, is no keyword, and starts with the hash. -/
theorem into_hex_color_hash (s : String) (t : List Char)
    (hq : s.data = '#' :: t) (h1 : SLACK_COLORS.contains s = false)
    (h2 : s.length = 7) :
    into_hex_color s =
      some (match from_hex t with
        | .ok _ => .ok ⟨s⟩
        | .error e => .error (.hexError e)) := by
  rw [into_hex_color_head s '#' t hq h1 h2, if_neg (by simp), if_neg (by decide)]

/-- C4: every input that is no reserved keyword and whose character count
is not 7 makes `into_hex_color` fail with the message
`Must be 7 characters long (including #)`. -/
theorem c4_wrong_length (s : String)
    (h1 : SLACK_COLORS.contains s = false) (h2 : s.length ≠ 7) :
    into_hex_color s =
      some (.error (.errHexColor "Must be 7 characters long (including #)")) := by
  unfold into_hex_color
  rw [if_neg (by rw [h1]; simp), if_pos h2]

/-- Witness for C4 at `"#ééé"`: 4 characters (but 7 UTF-8 bytes), so the
length check counts characters, not bytes. -/
theorem c4_wrong_length_witness :
    SLACK_COLORS.contains "#ééé" = false ∧ ("#ééé" : String).length ≠ 7 ∧
    into_hex_color "#ééé" =
      some (.error (.errHexColor "Must be 7 characters long (including #)")) :=
  ⟨by decide, by decide, c4_wrong_length "#ééé" (by decide) (by decide)⟩

/-- C5: every 7-character non-keyword input whose first character is not
the hash makes `into_hex_color` fail with the message `No leading #`. -/
theorem c5_missing_hash (s : String) (a : Char)
    (h1 : SLACK_COLORS.contains s = false) (h2 : s.length = 7)
    (h3 : s.data.head? = some a) (ha : a ≠ '#') :
    into_hex_color s = some (.error (.errHexColor "No leading #")) := by
  cases hd : s.data with
  | nil =>
    rw [hd] at h3
    exact absurd h3 (by simp)
  | cons b t =>
    rw [hd] at h3
    simp only [List.head?_cons, Option.some.injEq] at h3
    subst h3
    rw [into_hex_color_head s b t hd h1 h2, if_pos ha]

/-- Witness for C5 at `"1234567"`, the spec's example. -/
theorem c5_missing_hash_witness :
    SLACK_COLORS.contains "1234567" = false ∧ ("1234567" : String).length = 7 ∧
    ("1234567" : String).data.head? = some '1' ∧ '1' ≠ '#' ∧
    into_hex_color "1234567" = some (.error (.errHexColor "No leading #")) :=
  ⟨by decide, by decide, by decide, by decide,
    c5_missing_hash "1234567" '1' (by decide) (by decide) (by decide) (by decide)⟩

/-- C6: each of the three reserved keywords is accepted verbatim, stored
and rendered unchanged by `toText`, and the differently cased `"Good"`
does not match the keyword path (it falls through to the length check and
fails). -/
theorem c6_keywords :
    into_hex_color "good" = some (.ok ⟨"good"⟩) ∧
    HexColor.toText ⟨"good"⟩ = "good" ∧
    into_hex_color "warning" = some (.ok ⟨"warning"⟩) ∧
    HexColor.toText ⟨"warning"⟩ = "warning" ∧
    into_hex_color "danger" = some (.ok ⟨"danger"⟩) ∧
    HexColor.toText ⟨"danger"⟩ = "danger" ∧
    SLACK_COLORS.contains "Good" = false ∧
    into_hex_color "Good" =
      some (.error (.errHexColor "Must be 7 characters long (including #)")) := by
  decide

/-- C7: construction from the builtin enumeration is a total Lean
function; each of the three variants yields the `HexColor` holding its
fixed lowercase keyword, and both serialization paths render it. -/
theorem c7_builtin :
    HexColor.new .good = ⟨"good"⟩ ∧
    (HexColor.new .good).toText = "good" ∧
    (HexColor.new .good).to_json = .jstring "good" ∧
    HexColor.new .warning = ⟨"warning"⟩ ∧
    (HexColor.new .warning).toText = "warning" ∧
    (HexColor.new .warning).to_json = .jstring "warning" ∧
    HexColor.new .danger = ⟨"danger"⟩ ∧
    (HexColor.new .danger).toText = "danger" ∧
    (HexColor.new .danger).to_json = .jstring "danger" := by
  decide

/-- C8: a successful `into_hex_color` stores the input verbatim, and both
serialization paths (`toText`, the Debug rendering, and `to_json`) return
exactly that stored string. -/
theorem c8_serialization (s : String) (v : HexColor)
    (h : into_hex_color s = some (.ok v)) :
    v.text = s ∧ v.toText = s ∧ v.to_json = .jstring s := by
  have hv := into_hex_color_ok_eq s v h
  subst hv
  exact ⟨rfl, rfl, rfl⟩

/-- Witness for C8 at the spec's two case-preservation examples. -/
theorem c8_serialization_witness :
    into_hex_color "#103D18" = some (.ok ⟨"#103D18"⟩) ∧
    ((⟨"#103D18"⟩ : HexColor).text = "#103D18" ∧
      (⟨"#103D18"⟩ : HexColor).toText = "#103D18" ∧
      (⟨"#103D18"⟩ : HexColor).to_json = .jstring "#103D18") ∧
    into_hex_color "#103d18" = some (.ok ⟨"#103d18"⟩) ∧
    ((⟨"#103d18"⟩ : HexColor).text = "#103d18" ∧
      (⟨"#103d18"⟩ : HexColor).toText = "#103d18" ∧
      (⟨"#103d18"⟩ : HexColor).to_json = .jstring "#103d18") :=
  ⟨by decide, c8_serialization "#103D18" ⟨"#103D18"⟩ (by decide),
    by decide, c8_serialization "#103d18" ⟨"#103d18"⟩ (by decide)⟩

/-- C9: round-trip stability: when `into_hex_color s` succeeds with `v`,
parsing `v.toText` succeeds again with the same value. -/
theorem c9_roundtrip (s : String) (v : HexColor)
    (h : into_hex_color s = some (.ok v)) :
    into_hex_color v.toText = some (.ok v) := by
  have hv := into_hex_color_ok_eq s v h
  subst hv
  exact h

/-- Witness for C9 at `"#103d18"`. -/
theorem c9_roundtrip_witness :
    into_hex_color "#103d18" = some (.ok ⟨"#103d18"⟩) ∧
    into_hex_color (HexColor.toText ⟨"#103d18"⟩) = some (.ok ⟨"#103d18"⟩) :=
  ⟨by decide, c9_roundtrip "#103d18" ⟨"#103d18"⟩ (by decide)⟩

/-- C10: `into_hex_color` never panics: the modelled panic points (the
`unwrap` of the first character and the byte slice at offset 1) are never
reached in a panicking state, for every input string. -/
theorem c10_no_panic (s : String) : (into_hex_color s).isSome = true := by
  unfold into_hex_color
  split
  · rfl
  · split
    · rfl
    · next hlen =>
      have h7 : s.length = 7 := not_not.mp hlen
      cases hd : s.data with
      | nil =>
        exfalso
        rw [string_length_eq_data, hd] at h7
        simp at h7
      | cons a t =>
        simp only [List.head?_cons]
        split
        · rfl
        · next hne =>
          have ha : a = '#' := not_not.mp hne
          subst ha
          rw [if_neg (by decide)]
          rfl

/-- C1, counterexample: the claimed invariant — every stored string is a
keyword or hash-plus-six-hex-digits — is false: `"#a  b12"` contains two
spaces, yet `into_hex_color` accepts it, because the delegated hex
decoder skips whitespace. -/
theorem c1_invariant_counterexample :
    ¬ (∀ (s : String) (v : HexColor),
        into_hex_color s = some (.ok v) → C1SpecValid v.text) := by
  intro h
  have h2 := h "#a  b12" ⟨"#a  b12"⟩ (by decide)
  exact absurd h2 (by decide)

/-- C1 (amended): every successfully constructed `HexColor` — through
`into_hex_color` or through the builtin enumeration — stores its input
verbatim and the stored string is a reserved keyword, or 7 characters
starting with `#` whose remaining 6 characters are each a hex digit or
one of space, CR, LF, tab, with an even number of hex digits among them;
the value is never mutated afterwards, there being no mutating
operation. -/
theorem c1_stored_invariant :
    (∀ (s : String) (v : HexColor),
      into_hex_color s = some (.ok v) → v.text = s ∧ ValidStoredText v.text) ∧
    (∀ c : SlackColor, ValidStoredText (HexColor.new c).text) := by
  constructor
  · intro s v h
    have hv := into_hex_color_ok_eq s v h
    subst hv
    refine ⟨rfl, ?_⟩
    show ValidStoredText s
    unfold into_hex_color at h
    split at h
    · next hcon => exact Or.inl hcon
    · next hcon =>
      split at h
      · simp at h
      · next hlen =>
        have h7 : s.length = 7 := not_not.mp hlen
        split at h
        · exact absurd h (by simp)
        · next ch hh =>
          split at h
          · simp at h
          · next hch =>
            split at h
            · exact absurd h (by simp)
            · split at h
              · next l hfh =>
                have hch2 : ch = '#' := not_not.mp hch
                subst hch2
                have hok := (from_hex_loop_ok_iff (s.data.drop 1) 0 0 0 []
                  (by omega)).mp ⟨l, by unfold from_hex at hfh; exact hfh⟩
                refine Or.inr ⟨h7, hh, hok.1, ?_⟩
                have := hok.2
                omega
              · simp at h
  · intro c
    cases c <;> decide

/-- C2, counterexample: the claim — any hash-led 7-character non-keyword
input with a non-hex character among the last six fails with an
invalid-character error naming a character and position — is false:
`"#abc 12"` has a non-hex space among its last six characters, yet
`into_hex_color` fails with the decoder's length error (the space is
skipped and five hex digits remain, an odd number), which carries no
character at all. -/
theorem c2_invalid_hex_counterexample :
    ¬ (∀ s : String, SLACK_COLORS.contains s = false → s.length = 7 →
        s.data.head? = some '#' → (∃ c ∈ s.data.drop 1, ¬ SpecHexDigit c) →
        ∃ c i, into_hex_color s =
          some (.error (.hexError (.invalidHexCharacter c i)))) := by
  intro h
  obtain ⟨c, i, hci⟩ :=
    h "#abc 12" (by decide) (by decide) (by decide) (by decide)
  rw [show into_hex_color "#abc 12" =
      some (.error (.hexError .invalidHexLength)) from by decide] at hci
  simp at hci

/-- C2 (amended): for every 7-character non-keyword input starting with
`#`, if among the six characters after the hash there is one that is
neither a hex digit nor decoder whitespace (space, CR, LF, tab), then
`into_hex_color` fails with the decoder's invalid-character error naming
the first such character and its 0-based position among the six. -/
theorem c2_invalid_char_error (s : String) (pre : List Char) (c : Char)
    (post : List Char)
    (h1 : SLACK_COLORS.contains s = false) (h2 : s.length = 7)
    (h3 : s.data.head? = some '#')
    (hsplit : s.data.drop 1 = pre ++ c :: post)
    (hpre : ∀ x ∈ pre, hexOrWs x = true)
    (hc : hexOrWs c = false) :
    into_hex_color s =
      some (.error (.hexError (.invalidHexCharacter c pre.length))) := by
  have hq : s.data = '#' :: (pre ++ c :: post) := by
    cases hd : s.data with
    | nil =>
      rw [hd] at h3
      exact absurd h3 (by simp)
    | cons a t =>
      rw [hd] at h3
      simp only [List.head?_cons, Option.some.injEq] at h3
      rw [hd] at hsplit
      simp only [List.drop_succ_cons, List.drop_zero] at hsplit
      rw [h3, hsplit]
  have hfh : from_hex (pre ++ c :: post) =
      .error (.invalidHexCharacter c pre.length) := by
    unfold from_hex
    exact (from_hex_loop_invalidChar_iff (pre ++ c :: post) 0 0 0 []
      c pre.length).mpr ⟨pre, post, rfl, hpre, hc, by simp⟩
  rw [into_hex_color_hash s (pre ++ c :: post) hq h1 h2, hfh]

/-- Witness for the amended C2 at the spec's example `"#abc12z"`:
the offending `'z'` is reported at position 5. -/
theorem c2_invalid_char_error_witness :
    into_hex_color "#abc12z" =
      some (.error (.hexError (.invalidHexCharacter 'z' 5))) :=
  c2_invalid_char_error "#abc12z" ['a', 'b', 'c', '1', '2'] 'z' []
    (by decide) (by decide) (by decide) (by decide) (by decide) (by decide)

/-- C3, counterexample: the claim that the reported position is the
1-based position of the offending character within the full input string
is false: for `"#abc12z"` the code reports position 5, but the character
at 1-based position 5 of the full string is `'1'`, not `'z'` (`'z'` sits
at 1-based position 7). -/
theorem c3_position_counterexample :
    ¬ (∀ (s : String) (c : Char) (i : Nat),
        into_hex_color s = some (.error (.hexError (.invalidHexCharacter c i))) →
        s.data[i - 1]? = some c) := by
  intro h
  have h2 := h "#abc12z" 'z' 5 (by decide)
  exact absurd h2 (by decide)

/-- C3 (amended): whenever `into_hex_color` fails with the decoder's
invalid-character error, the carried character is the first character
after the hash that is neither a hex digit nor decoder whitespace, and
the carried position is its 0-based position within the six characters
after the hash — equivalently, the character sits at 0-based position
`i + 1` of the full input string. -/
theorem c3_invalid_char_position (s : String) (c : Char) (i : Nat)
    (h : into_hex_color s = some (.error (.hexError (.invalidHexCharacter c i)))) :
    ∃ pre post, s.data = '#' :: (pre ++ c :: post) ∧
      (∀ x ∈ pre, hexOrWs x = true) ∧ hexOrWs c = false ∧
      i = pre.length ∧ s.data[i + 1]? = some c := by
  unfold into_hex_color at h
  split at h
  · simp at h
  · split at h
    · simp at h
    · next hlen =>
      split at h
      · exact absurd h (by simp)
      · next ch hh =>
        split at h
        · simp at h
        · next hch =>
          split at h
          · exact absurd h (by simp)
          · split at h
            · simp at h
            · next e hfh =>
              simp only [Option.some.injEq, Except.error.injEq,
                SlackError.hexError.injEq] at h
              subst h
              have hch2 : ch = '#' := not_not.mp hch
              subst hch2
              obtain ⟨pre, post, hsp, hpre, hc, hi⟩ :=
                (from_hex_loop_invalidChar_iff (s.data.drop 1) 0 0 0 [] c i).mp
                  (by unfold from_hex at hfh; exact hfh)
              have hi2 : i = pre.length := by simpa using hi
              have hq : s.data = '#' :: (pre ++ c :: post) := by
                cases hd : s.data with
                | nil =>
                  rw [hd] at hh
                  exact absurd hh (by simp)
                | cons a t =>
                  rw [hd] at hh
                  simp only [List.head?_cons, Option.some.injEq] at hh
                  rw [hd] at hsp
                  simp only [List.drop_succ_cons, List.drop_zero] at hsp
                  rw [hh, hsp]
              refine ⟨pre, post, hq, hpre, hc, hi2, ?_⟩
              rw [hq, hi2]
              have hgoal : (pre ++ c :: post)[pre.length]? = some c := by
                rw [List.getElem?_append_right (Nat.le_refl _)]
                simp
              simpa [List.getElem?_cons_succ] using hgoal

/-- Witness for the amended C3 at `"#abc12z"`. -/
theorem c3_invalid_char_position_witness :
    ∃ pre post, ("#abc12z" : String).data = '#' :: (pre ++ 'z' :: post) ∧
      (∀ x ∈ pre, hexOrWs x = true) ∧ hexOrWs 'z' = false ∧
      5 = pre.length ∧ ("#abc12z" : String).data[5 + 1]? = some 'z' :=
  c3_invalid_char_position "#abc12z" 'z' 5 (by decide)

/-- Witness for the amended C1 at `"#103d18"` and the builtin `Good`. -/
theorem c1_stored_invariant_witness :
    into_hex_color "#103d18" = some (.ok ⟨"#103d18"⟩) ∧
    ((⟨"#103d18"⟩ : HexColor).text = "#103d18" ∧
      ValidStoredText (⟨"#103d18"⟩ : HexColor).text) ∧
    ValidStoredText (HexColor.new .good).text :=
  ⟨by decide, c1_stored_invariant.1 "#103d18" ⟨"#103d18"⟩ (by decide),
    c1_stored_invariant.2 .good⟩

end RustSlack
